import Mathlib

/-!
# opendlv-device-camera-rpicamv2 : `example.cpp`

A shallow embedding of `main` of `src/example/src/example.cpp`.

The program is sequential glue around three libraries (cluon, OpenCV, tiny-dnn).
The embedding makes every call into one of them, and every line of output, an
`Event` of a trace, and takes what the libraries answer from a `World`.  A run
is the trace together with the way `main` ends.

Library calls that can fail are given their failing outcome where the program
depends on it: `std::stoi` and `net2.load` may throw, and so may
`cv::cvarrToMat` and `cv::resize` inside the locked section.  Nothing in `main`
catches, so an exception ends the run.  The other calls return.

The `float` computations of the source (the sample sweep and the maximum-error
update) are embedded over an exact model of IEEE-754 binary32 with
round-to-nearest-even.
-/

namespace Example

/-! ## binary32 -/

/-- A binary32 value.  Every finite binary32 number is an integer multiple of
`2^-149`; `fin n` is the number `n * 2^-149`.  The two signed zeros are both
`fin 0` (the program never divides and never prints a negative zero). -/
inductive F32 where
  | nan : F32
  | inf (neg : Bool) : F32
  | fin (n : Int) : F32
  deriving DecidableEq, Repr

namespace F32

/-- Number of binary digits of `a`, computed with fuel `f` (any `f ≥` the number of digits). -/
def bitLen : Nat → Nat → Nat
  | 0, _ => 0
  | f + 1, a => if a = 0 then 0 else bitLen f (a / 2) + 1

/-- Round a magnitude (in units of `2^-149`) to 24 significant bits, ties to even. -/
def roundMag (a : Nat) : Nat :=
  if a < 2 ^ 24 then a
  else
    let s := bitLen 400 a - 24
    let q := a / 2 ^ s
    let r := a % 2 ^ s
    let up := 2 ^ (s - 1) < r ∨ (r = 2 ^ (s - 1) ∧ q % 2 = 1)
    (if up then q + 1 else q) * 2 ^ s

/-- Round an exact value `n * 2^-149` to binary32: magnitudes that round to
`2^128` or more overflow to infinity. -/
def round (n : Int) : F32 :=
  let m := roundMag n.natAbs
  if 2 ^ 24 * 2 ^ 253 ≤ m then inf (decide (n < 0))
  else fin (if n < 0 then -(m : Int) else (m : Int))

/-- Binary32 addition `a + b`. -/
def add : F32 → F32 → F32
  | nan, _ => nan
  | _, nan => nan
  | inf a, inf b => if a = b then inf a else nan
  | inf a, fin _ => inf a
  | fin _, inf b => inf b
  | fin a, fin b => round (a + b)

/-- Binary32 subtraction `a - b`. -/
def sub : F32 → F32 → F32
  | nan, _ => nan
  | _, nan => nan
  | inf a, inf b => if a = b then nan else inf a
  | inf a, fin _ => inf a
  | fin _, inf b => inf (!b)
  | fin a, fin b => round (a - b)

/-- The function `std::fabs` on binary32. -/
def fabs : F32 → F32
  | nan => nan
  | inf _ => inf false
  | fin n => fin (Int.ofNat n.natAbs)

/-- The comparison `a < b` of C++ on binary32: false as soon as one side is NaN. -/
def lt : F32 → F32 → Bool
  | nan, _ => false
  | _, nan => false
  | inf a, inf b => a && !b
  | inf a, fin _ => a
  | fin _, inf b => !b
  | fin a, fin b => decide (a < b)

/-- The literal `0.f`. -/
def zero : F32 := fin 0

/-- The literal `3.1416f`: `0x40490ff9`, that is `13176825 * 2^-22`. -/
def lit_3_1416 : F32 := fin (13176825 * 2 ^ 127)

/-- The literal `-3.1416f`. -/
def lit_neg_3_1416 : F32 := fin (-(13176825 * 2 ^ 127))

/-- The literal `0.2f`: `0x3e4ccccd`, that is `13421773 * 2^-26`. -/
def lit_0_2 : F32 := fin (13421773 * 2 ^ 123)

end F32

/-- The values of `x` visited by `for (float x = -3.1416f; x < 3.1416f; x += 0.2f)`,
from `x` on; `none` when the fuel runs out before the loop condition fails. -/
def sweepFrom : Nat → F32 → Option (List F32)
  | 0, _ => none
  | fuel + 1, x =>
    if F32.lt x F32.lit_3_1416 then
      (sweepFrom fuel (F32.add x F32.lit_0_2)).map (fun xs => x :: xs)
    else some []

/-! ## The world around `main` -/

/-- Raw pixel bytes: what the shared buffer or a `cv::Mat` holds. -/
abbrev Frame := List Nat

/-- The prediction function of a tiny-dnn network with one input and one output:
`net.predict(xv)[0]` as a function of `xv[0]`. -/
abbrev Model := F32 → F32

/-- Which call of the locked section throws in a loop iteration, if any. -/
inductive Fault where
  | none : Fault
  | cvarrToMat : Fault
  | resize : Fault
  deriving DecidableEq, Repr

/-- Everything `main` takes from outside. -/
structure World where
  /-- The string `argv[0]`. -/
  argv0 : String
  /-- The map returned by `cluon::getCommandlineArguments`. -/
  args : String → Option String
  /-- The function `std::stoi`; `none` when it throws. -/
  stoi : String → Option Int
  /-- Answer of `sharedMemory->valid()` for a shared memory of the given name. -/
  shmValid : String → Bool
  /-- Answer of `sharedMemory->name()`. -/
  shmName : String → String
  /-- Answer of `sharedMemory->size()`. -/
  shmSize : String → Nat
  /-- The function `sinf`. -/
  sinf : F32 → F32
  /-- The network that `net.fit` leaves in `net`. -/
  trained : Model
  /-- Answer of `net.get_loss` after the given epoch. -/
  loss : Nat → F32
  /-- The network stored in the file `net` when the program starts, if the file exists. -/
  netFile : Option Model
  /-- The successive answers of `od4.isRunning()`. -/
  running : List Bool
  /-- Content of the shared buffer during the given loop iteration. -/
  frame : Nat → Frame
  /-- Failure of `cv::cvarrToMat` or `cv::resize` in the given loop iteration. -/
  cvFault : Nat → Fault
  /-- The image `cv::resize` produces from a source for a target width and height. -/
  cvResize : Frame → Nat → Nat → Frame
  /-- Answer of `cluon::time::now()` in the given loop iteration. -/
  now : Nat → Nat

/-- An exception that leaves `main` (nothing in `main` catches). -/
inductive Exn where
  | stoiFailed : Exn
  | loadFailed : Exn
  | cvError : Exn
  deriving DecidableEq, Repr

/-- How a run ends. -/
inductive Outcome where
  /-- The statement `return retCode`. -/
  | exit (code : Int) : Outcome
  /-- An exception left `main`. -/
  | uncaught (e : Exn) : Outcome
  /-- The answers of `od4.isRunning()` ran out while the loop was still running. -/
  | awaiting : Outcome
  /-- The fuel of a sample sweep ran out. -/
  | outOfFuel : Outcome
  deriving DecidableEq, Repr

/-- A call into a library or a line of output. -/
inductive Event where
  | cerr (line : String) : Event
  | clog (line : String) : Event
  | cout (line : String) : Event
  | od4Open (cid : Nat) : Event
  | shmNew (name : String) (valid : Bool) : Event
  | cvCreateImageHeader (width height depth channels : Nat) : Event
  | shmLock : Event
  | shmData : Event
  | shmUnlock : Event
  | shmWait : Event
  | fit (X sinusX : List F32) (batchSize epochs : Nat) : Event
  | coutLoss (iEpoch epochs : Nat) (loss : F32) : Event
  | save (file : String) : Event
  | load (file : String) (found : Bool) : Event
  | coutSample (x sinX predicted : F32) : Event
  | coutMaxError (fMaxError : F32) : Event
  | isRunning (answer : Bool) : Event
  | cvarrToMat : Event
  | resize (width height : Nat) : Event
  | imwrite (file : String) (image : Frame) : Event
  | sleep (seconds : Nat) : Event
  | coutTarget (angle distance : F32) : Event
  | send (azimuthAngle distance : F32) (sampleTime senderStamp : Nat) : Event
  | cvReleaseImageHeader : Event
  deriving DecidableEq, Repr

/-- A run of `main`: what it did, in order, and how it ended. -/
structure Run where
  trace : List Event
  outcome : Outcome

/-- The call `commandlineArguments.count(key)`. -/
def count (w : World) (key : String) : Nat :=
  if (w.args key).isSome then 1 else 0

/-- The call `commandlineArguments[key]`: the empty string for an absent key. -/
def arg (w : World) (key : String) : String :=
  (w.args key).getD ""

/-- The lines written to `std::cerr` when a required flag is missing. -/
def usage (argv0 : String) : List Event :=
  [ Event.cerr (argv0 ++ " accesses video data using shared memory provided using the command line parameter --name=."),
    Event.cerr ("Usage:   " ++ argv0 ++ " --cid=<OpenDaVINCI session> --name=<name for the associated shared memory> [--id=<sender stamp>] [--verbose]"),
    Event.cerr "         --name:    name of the shared memory to use",
    Event.cerr "         --traincnn: set 1 or 0 for training the tiny dnn example and saving a net binary",
    Event.cerr "         --verbose: when set, a thumbnail of the image contained in the shared memory is sent",
    Event.cerr ("Example: " ++ argv0 ++ " --cid=111 --name=cam0 --traincnn=1") ]

/-! ## The tiny-dnn part -/

/-- The loop that fills `X` and `sinusX`:
`for (float x = -3.1416f; x < 3.1416f; x += 0.2f)`. -/
def dataset (sinf : F32 → F32) : Nat → F32 → List F32 → List F32 → Option (List F32 × List F32)
  | 0, _, _, _ => none
  | fuel + 1, x, X, sinusX =>
    if F32.lt x F32.lit_3_1416 then
      dataset sinf fuel (F32.add x F32.lit_0_2) (X ++ [x]) (sinusX ++ [sinf x])
    else some (X, sinusX)

/-- The lambda `on_enumerate_epoch`: the new `iEpoch` and what it prints. -/
def onEnumerateEpoch (w : World) (epochs : Nat) (iEpoch : Nat) : Nat × List Event :=
  let iEpoch := iEpoch + 1
  if iEpoch % 100 ≠ 0 then (iEpoch, [])
  else (iEpoch, [Event.coutLoss iEpoch epochs (w.loss iEpoch)])

/-- What `net.fit` prints through `on_enumerate_epoch`, called once after each
of the remaining epochs. -/
def epochCallbacks (w : World) (epochs : Nat) : Nat → Nat → List Event
  | 0, _ => []
  | remaining + 1, iEpoch =>
    let r := onEnumerateEpoch w epochs iEpoch
    r.2 ++ epochCallbacks w epochs remaining r.1

/-- The update `if (fMaxError < fError) fMaxError = fError` with
`fError = std::fabs(fPredicted - fDesired)`. -/
def updateMaxError (fMaxError fPredicted fDesired : F32) : F32 :=
  let fError := F32.fabs (F32.sub fPredicted fDesired)
  if F32.lt fMaxError fError then fError else fMaxError

/-- The loop that compares prediction and desired output: the lines it prints
and the final `fMaxError`. -/
def evalLoop (predict : Model) (sinf : F32 → F32) :
    Nat → F32 → F32 → List Event → Option (List Event × F32)
  | 0, _, _, _ => none
  | fuel + 1, x, fMaxError, out =>
    if F32.lt x F32.lit_3_1416 then
      let fPredicted := predict x
      let fDesired := sinf x
      evalLoop predict sinf fuel (F32.add x F32.lit_0_2)
        (updateMaxError fMaxError fPredicted fDesired)
        (out ++ [Event.coutSample x fDesired fPredicted])
    else some (out, fMaxError)

/-- Fuel given to the two sample sweeps. -/
def sweepFuel : Nat := 64

/-! ## The frame loop -/

/-- Wrap into `int32_t`: the value `i++` is given when it leaves the range (in
C++ the overflow is undefined; no statement below depends on it). -/
def wrapInt32 (v : Int) : Int := (v + 2 ^ 31) % 2 ^ 32 - 2 ^ 31

/-- How the frame loop was left. -/
inductive LoopExit where
  | stopped : LoopExit
  | threw (e : Exn) : LoopExit
  | awaiting : LoopExit
  deriving DecidableEq, Repr

/-- Result of the frame loop: its events, how it was left, and the counter `i`. -/
structure LoopRun where
  trace : List Event
  exit : LoopExit
  i : Int

/-- The block `if (VERBOSE) ...` of one iteration, for the counter value `i`. -/
def verboseBlock (scaledImage : Frame) (i : Int) : List Event :=
  [ Event.imwrite (toString i ++ ".jpg") scaledImage,
    Event.sleep 1,
    Event.coutTarget F32.zero F32.zero ]

/-- The loop `while (od4.isRunning())`, from iteration `k` on with counter `i`,
against the remaining answers of `od4.isRunning()`. -/
def frameLoop (w : World) (VERBOSE : Bool) (ID : Nat) : List Bool → Nat → Int → LoopRun
  | [], _, i => ⟨[], LoopExit.awaiting, i⟩
  | false :: _, _, i => ⟨[Event.isRunning false], LoopExit.stopped, i⟩
  | true :: rest, k, i =>
    let width := 256
    let height := 196
    match w.cvFault k with
    | Fault.cvarrToMat =>
      ⟨[Event.isRunning true, Event.shmWait, Event.shmLock, Event.cvarrToMat],
        LoopExit.threw Exn.cvError, i⟩
    | Fault.resize =>
      ⟨[Event.isRunning true, Event.shmWait, Event.shmLock, Event.cvarrToMat,
        Event.resize width height], LoopExit.threw Exn.cvError, i⟩
    | Fault.none =>
      let scaledImage := w.cvResize (w.frame k) width height
      let estimatedDetectionAngle := F32.zero
      let estimatedDetectionDistance := F32.zero
      let i' := if VERBOSE then wrapInt32 (i + 1) else i
      let next := frameLoop w VERBOSE ID rest (k + 1) i'
      ⟨[Event.isRunning true, Event.shmWait, Event.shmLock, Event.cvarrToMat,
        Event.resize width height, Event.shmUnlock]
        ++ (if VERBOSE then verboseBlock scaledImage i else [])
        ++ [Event.send estimatedDetectionAngle estimatedDetectionDistance (w.now k) ID]
        ++ next.trace, next.exit, next.i⟩

/-! ## `main` -/

/-- The training branch `if (TRAINCNN)`. -/
def train (w : World) : Option (List Event) :=
  let batch_size := 16
  let epochs := 2000
  match dataset w.sinf sweepFuel F32.lit_neg_3_1416 [] [] with
  | none => none
  | some (X, sinusX) =>
    some ([ Event.cout "learning the sinus function with 2000 epochs:",
            Event.fit X sinusX batch_size epochs ]
          ++ epochCallbacks w epochs epochs 0
          ++ [ Event.cout "",
               Event.cout "Training finished, now computing prediction results:",
               Event.save "net" ])

/-- The branch of `main` taken when the shared memory is valid. -/
def attached (w : World) (retCode : Int) (VERBOSE TRAINCNN : Bool) (ID : Nat)
    (NAME : String) : Run :=
  let WIDTH := 1280
  let HEIGHT := 960
  let BPP := 24
  let IPL_DEPTH_8U := 8
  let head :=
    [ Event.clog (w.argv0 ++ ": Found shared memory \x27" ++ w.shmName NAME ++ "\x27 ("
        ++ toString (w.shmSize NAME) ++ " bytes)."),
      Event.cvCreateImageHeader WIDTH HEIGHT IPL_DEPTH_8U (BPP / 8),
      Event.shmLock, Event.shmData, Event.shmUnlock ]
  match (if TRAINCNN then train w else some []) with
  | none => ⟨head, Outcome.outOfFuel⟩
  | some training =>
    let file := if TRAINCNN then some w.trained else w.netFile
    match file with
    | none => ⟨head ++ training ++ [Event.load "net" false], Outcome.uncaught Exn.loadFailed⟩
    | some net2 =>
      match evalLoop net2 w.sinf sweepFuel F32.lit_neg_3_1416 F32.zero [] with
      | none => ⟨head ++ training ++ [Event.load "net" true], Outcome.outOfFuel⟩
      | some (samples, fMaxError) =>
        let before := head ++ training ++ [Event.load "net" true] ++ samples
          ++ [Event.cout "", Event.coutMaxError fMaxError]
        let loop := frameLoop w VERBOSE ID w.running 0 0
        match loop.exit with
        | LoopExit.stopped =>
          ⟨before ++ loop.trace ++ [Event.cvReleaseImageHeader], Outcome.exit retCode⟩
        | LoopExit.threw e => ⟨before ++ loop.trace, Outcome.uncaught e⟩
        | LoopExit.awaiting => ⟨before ++ loop.trace, Outcome.awaiting⟩

/-- The function `main`. -/
def main (w : World) : Run :=
  let retCode : Int := 0
  if count w "name" = 0 ∨ count w "cid" = 0 ∨ count w "traincnn" = 0 then
    let retCode : Int := 1
    ⟨usage w.argv0, Outcome.exit retCode⟩
  else
    let VERBOSE := decide (count w "verbose" ≠ 0)
    match w.stoi (arg w "traincnn") with
    | none => ⟨[], Outcome.uncaught Exn.stoiFailed⟩
    | some traincnn =>
      let TRAINCNN := decide (traincnn = 1)
      match (if (arg w "id").length ≠ 0 then w.stoi (arg w "id") else some 0) with
      | none => ⟨[], Outcome.uncaught Exn.stoiFailed⟩
      | some id =>
        let ID := (id % 2 ^ 32).toNat
        let NAME := if (arg w "name").length ≠ 0 then arg w "name" else "/cam0"
        match w.stoi (arg w "cid") with
        | none => ⟨[], Outcome.uncaught Exn.stoiFailed⟩
        | some cid =>
          let opened := [Event.od4Open (cid % 2 ^ 16).toNat, Event.shmNew NAME (w.shmValid NAME)]
          if w.shmValid NAME then
            let r := attached w retCode VERBOSE TRAINCNN ID NAME
            ⟨opened ++ r.trace, r.outcome⟩
          else
            ⟨opened ++ [Event.cerr (w.argv0 ++ ": Failed to access shared memory \x27" ++ NAME
              ++ "\x27.")], Outcome.exit retCode⟩

/-! ## Concrete worlds -/

/-- Value of a run of decimal digits. -/
def digitsValue (ds : List Char) : Nat :=
  ds.foldl (fun acc c => 10 * acc + (c.toNat - 48)) 0

/-- A model of `std::stoi` in base 10: leading white space, an optional sign, then
digits up to the first other character; `none` (the call throws) when there is
no digit or the value does not fit `int`. -/
def stdStoi (s : String) : Option Int :=
  let cs := s.data.dropWhile Char.isWhitespace
  let signed : Bool × List Char :=
    match cs with
    | '-' :: r => (true, r)
    | '+' :: r => (false, r)
    | r => (false, r)
  let ds := signed.2.takeWhile Char.isDigit
  if ds.isEmpty then none
  else
    let v : Int := if signed.1 then -(digitsValue ds : Int) else (digitsValue ds : Int)
    if v < -(2 ^ 31) ∨ 2 ^ 31 ≤ v then none else some v

/-- A polynomial stand-in for `sinf` (the Taylor sum up to `x^17`, rounded to
binary32), used only in the concrete worlds below. -/
def sinfPoly : F32 → F32
  | F32.fin n =>
    let u : Int := 2 ^ 149
    let t1 := n
    let t3 := n ^ 3 / (6 * u ^ 2)
    let t5 := n ^ 5 / (120 * u ^ 4)
    let t7 := n ^ 7 / (5040 * u ^ 6)
    let t9 := n ^ 9 / (362880 * u ^ 8)
    let t11 := n ^ 11 / (39916800 * u ^ 10)
    let t13 := n ^ 13 / (6227020800 * u ^ 12)
    let t15 := n ^ 15 / (1307674368000 * u ^ 14)
    let t17 := n ^ 17 / (355687428096000 * u ^ 16)
    F32.round (t1 - t3 + t5 - t7 + t9 - t11 + t13 - t15 + t17)
  | _ => F32.nan

/-- A world with the three required flags, a valid shared memory, a stored
network and an empty script of `isRunning` answers; the worlds below vary it. -/
def baseWorld : World where
  argv0 := "example"
  args := fun key => [("cid", "111"), ("name", "cam0"), ("traincnn", "0")].lookup key
  stoi := stdStoi
  shmValid := fun _ => true
  shmName := fun name => name
  shmSize := fun _ => 3686400
  sinf := sinfPoly
  trained := sinfPoly
  loss := fun _ => F32.zero
  netFile := some sinfPoly
  running := []
  frame := fun _ => []
  cvFault := fun _ => Fault.none
  cvResize := fun _ _ _ => []
  now := fun k => k

/-- Required flags given, no shared memory of that name: `--cid=111 --name=cam0 --traincnn=0`. -/
def wNoShm : World := { baseWorld with shmValid := fun _ => false }

/-- The flag `--traincnn` is missing: `--cid=111 --name=cam0`. -/
def wUsage : World :=
  { baseWorld with args := fun key => [("cid", "111"), ("name", "cam0")].lookup key }

/-- Training requested: `--cid=111 --name=cam0 --traincnn=1`; the session is
already inactive at the first check. -/
def wTrain : World :=
  { baseWorld with
    args := fun key => [("cid", "111"), ("name", "cam0"), ("traincnn", "1")].lookup key
    running := [false] }

/-- Verbose run with `--id=7` and three frames before the session goes inactive. -/
def wVerbose : World :=
  { baseWorld with
    args := fun key =>
      [("cid", "111"), ("name", "cam0"), ("traincnn", "0"), ("id", "7"), ("verbose", "1")].lookup key
    running := [true, true, true, false]
    frame := fun k => [k, k + 1, k + 2]
    cvResize := fun src _ _ => src.take 1 }

/-- One frame, then the session goes inactive. -/
def wOnce : World := { baseWorld with running := [true, false] }

/-- The stored network answers `+inf` for every input. -/
def wInf : World :=
  { baseWorld with netFile := some (fun _ => F32.inf false), running := [false] }

/-- The call `cv::resize` throws in the second iteration. -/
def wFault : World :=
  { baseWorld with
    running := [true, true, true, false]
    cvFault := fun k => if k = 1 then Fault.resize else Fault.none }

/-! ## Observations on traces -/

/-- The constructor of an event, without its payload. -/
inductive Kind where
  | cerr | clog | cout | od4Open | shmNew | cvCreateImageHeader
  | shmLock | shmData | shmUnlock | shmWait
  | fit | coutLoss | save | load | coutSample | coutMaxError
  | isRunning | cvarrToMat | resize | imwrite | sleep | coutTarget | send
  | cvReleaseImageHeader
  deriving DecidableEq, Repr

/-- The kind of an event. -/
def Event.kind : Event → Kind
  | Event.cerr _ => Kind.cerr
  | Event.clog _ => Kind.clog
  | Event.cout _ => Kind.cout
  | Event.od4Open _ => Kind.od4Open
  | Event.shmNew _ _ => Kind.shmNew
  | Event.cvCreateImageHeader _ _ _ _ => Kind.cvCreateImageHeader
  | Event.shmLock => Kind.shmLock
  | Event.shmData => Kind.shmData
  | Event.shmUnlock => Kind.shmUnlock
  | Event.shmWait => Kind.shmWait
  | Event.fit _ _ _ _ => Kind.fit
  | Event.coutLoss _ _ _ => Kind.coutLoss
  | Event.save _ => Kind.save
  | Event.load _ _ => Kind.load
  | Event.coutSample _ _ _ => Kind.coutSample
  | Event.coutMaxError _ => Kind.coutMaxError
  | Event.isRunning _ => Kind.isRunning
  | Event.cvarrToMat => Kind.cvarrToMat
  | Event.resize _ _ => Kind.resize
  | Event.imwrite _ _ => Kind.imwrite
  | Event.sleep _ => Kind.sleep
  | Event.coutTarget _ _ => Kind.coutTarget
  | Event.send _ _ _ _ => Kind.send
  | Event.cvReleaseImageHeader => Kind.cvReleaseImageHeader

/-- The answers `od4.isRunning()` returned in a trace, in order. -/
def answersOf (tr : List Event) : List Bool :=
  tr.filterMap (fun e => match e with
    | Event.isRunning a => some a
    | _ => none)

/-- Number of calls of `od4.send` in a trace. -/
def sendCount (tr : List Event) : Nat :=
  tr.countP (fun e => decide (e.kind = Kind.send))

/-- The events up to the next `od4.isRunning()` check. -/
def segment : List Event → List Event
  | [] => []
  | Event.isRunning _ :: _ => []
  | e :: rest => e :: segment rest

/-- The loop iterations of a trace: for each check that answered `true`, the
events up to the next check. -/
def iterations : List Event → List (List Event)
  | [] => []
  | Event.isRunning true :: rest => segment rest :: iterations rest
  | _ :: rest => iterations rest

/-- State of the shared-memory lock after one more event. -/
def lockStep (held : Bool) (e : Event) : Bool :=
  match e with
  | Event.shmLock => true
  | Event.shmUnlock => false
  | _ => held

/-- Whether the shared-memory lock is held after a trace, given whether it was
held before. -/
def heldAfter (held : Bool) (tr : List Event) : Bool :=
  tr.foldl lockStep held

/-- The training, save and load calls of a trace, in order. -/
def modelOps (tr : List Event) : List Event :=
  tr.filter (fun e => decide (e.kind ∈ [Kind.fit, Kind.save, Kind.load]))

/-- The kinds of event that train, persist, load or evaluate a model, or that
process or publish a frame. -/
def processingKinds : List Kind :=
  [Kind.fit, Kind.save, Kind.load, Kind.coutSample, Kind.coutMaxError, Kind.shmWait,
   Kind.shmLock, Kind.resize, Kind.imwrite, Kind.send]

/-- The error `std::fabs(fPredicted - fDesired)` at a sample point. -/
def errorAt (predict : Model) (sinf : F32 → F32) (x : F32) : F32 :=
  F32.fabs (F32.sub (predict x) (sinf x))

/-- The sample points of the sweep `-3.1416f, -3.1416f + 0.2f, ...` below `3.1416f`. -/
def sweepPoints : List F32 :=
  (sweepFrom sweepFuel F32.lit_neg_3_1416).getD []

/-- A binary32 value that is neither NaN nor negative. -/
def F32.nonneg : F32 → Bool
  | F32.nan => false
  | F32.inf neg => !neg
  | F32.fin n => decide (0 ≤ n)

/-- A binary32 value that is neither NaN nor infinite. -/
def F32.isFinite : F32 → Bool
  | F32.fin _ => true
  | _ => false

/-- The update `if (fMaxError < fError) fMaxError = fError` folded over a list of errors. -/
def maxFold (es : List F32) (m : F32) : F32 :=
  es.foldl (fun m e => if F32.lt m e then e else m) m

/-- The events of one loop iteration in which nothing throws, after the check
`od4.isRunning()`: iteration `k`, counter value `i`. -/
def iterationBody (w : World) (VERBOSE : Bool) (ID : Nat) (k : Nat) (i : Int) : List Event :=
  [Event.shmWait, Event.shmLock, Event.cvarrToMat, Event.resize 256 196, Event.shmUnlock]
    ++ (if VERBOSE then verboseBlock (w.cvResize (w.frame k) 256 196) i else [])
    ++ [Event.send F32.zero F32.zero (w.now k) ID]

/-- The events that the program performs between `sharedMemory->lock()` and the
end of the locked section. -/
def inLockedSection (e : Event) : Bool :=
  decide (e.kind ∈ [Kind.shmData, Kind.cvarrToMat, Kind.resize, Kind.shmUnlock])

/-- The lock discipline of a trace: an event belongs to a locked section exactly
when the lock is held before it. -/
def lockDiscipline (held : Bool) : List Event → Bool
  | [] => true
  | e :: rest => (inLockedSection e == held) && lockDiscipline (lockStep held e) rest

/-- The kinds of event that touch the lock or belong to a locked section. -/
def lockKinds : List Kind :=
  [Kind.shmLock, Kind.shmUnlock, Kind.shmData, Kind.cvarrToMat, Kind.resize]

/-- The kinds of event of the frame loop. -/
def loopKinds : List Kind :=
  [Kind.isRunning, Kind.shmWait, Kind.shmLock, Kind.cvarrToMat, Kind.resize, Kind.shmUnlock,
   Kind.imwrite, Kind.sleep, Kind.coutTarget, Kind.send]

/-- The flag `VERBOSE`. -/
def verboseFlag (w : World) : Bool := decide (count w "verbose" ≠ 0)

/-- The string `NAME`. -/
def nameOf (w : World) : String :=
  if (arg w "name").length ≠ 0 then arg w "name" else "/cam0"

/-- A required flag is missing. -/
def missingFlag (w : World) : Prop :=
  w.args "name" = none ∨ w.args "cid" = none ∨ w.args "traincnn" = none

/-- The events from the message `Found shared memory` to the first unlock. -/
def headEvents (w : World) (NAME : String) : List Event :=
  [ Event.clog (w.argv0 ++ ": Found shared memory \x27" ++ w.shmName NAME ++ "\x27 ("
      ++ toString (w.shmSize NAME) ++ " bytes)."),
    Event.cvCreateImageHeader 1280 960 8 3,
    Event.shmLock, Event.shmData, Event.shmUnlock ]

/-- The events of the training branch, over the 32 sample points. -/
def trainingEvents (w : World) : List Event :=
  [ Event.cout "learning the sinus function with 2000 epochs:",
    Event.fit sweepPoints (sweepPoints.map w.sinf) 16 2000 ]
  ++ epochCallbacks w 2000 2000 0
  ++ [ Event.cout "",
       Event.cout "Training finished, now computing prediction results:",
       Event.save "net" ]

/-- The value of `fMaxError` after the evaluation sweep of a model. -/
def maxError (predict : Model) (sinf : F32 → F32) : F32 :=
  maxFold (sweepPoints.map (errorAt predict sinf)) F32.zero

/-- The events of the valid branch before the frame loop, when the model `net2`
was loaded. -/
def preLoop (w : World) (TRAINCNN : Bool) (NAME : String) (net2 : Model) : List Event :=
  headEvents w NAME ++ (if TRAINCNN then trainingEvents w else [])
  ++ [Event.load "net" true]
  ++ sweepPoints.map (fun x => Event.coutSample x (w.sinf x) (net2 x))
  ++ [Event.cout "", Event.coutMaxError (maxError net2 w.sinf)]

/-- What follows the frame loop: the events and the outcome of the run. -/
def closing (retCode : Int) : LoopExit → List Event × Outcome
  | LoopExit.stopped => ([Event.cvReleaseImageHeader], Outcome.exit retCode)
  | LoopExit.threw e => ([], Outcome.uncaught e)
  | LoopExit.awaiting => ([], Outcome.awaiting)

/-- The model file that `net2.load("net")` finds. -/
def modelFile (w : World) (TRAINCNN : Bool) : Option Model :=
  if TRAINCNN then some w.trained else w.netFile

/-- The line written to `std::cerr` when the shared memory is not valid. -/
def failedLine (w : World) : Event :=
  Event.cerr (w.argv0 ++ ": Failed to access shared memory \x27" ++ nameOf w ++ "\x27.")

/-- The kinds of event of the valid branch before the frame loop. -/
def preLoopKinds : List Kind :=
  [Kind.clog, Kind.cvCreateImageHeader, Kind.shmLock, Kind.shmData, Kind.shmUnlock, Kind.cout,
   Kind.fit, Kind.coutLoss, Kind.save, Kind.load, Kind.coutSample, Kind.coutMaxError]

/-! ## The sample sweep -/

/-- The literals are the binary32 numbers nearest to `3.1416` and `0.2`: they
differ from the decimal values by at most half a unit in the last place
(`2^-23` and `2^-27`). -/
theorem literals_nearest :
    F32.lit_3_1416 = F32.fin (13176825 * 2 ^ 127)
    ∧ (13176825 * 10000 - 31416 * 2 ^ 22 : Int).natAbs ≤ 5000
    ∧ F32.lit_0_2 = F32.fin (13421773 * 2 ^ 123)
    ∧ (13421773 * 10 - 2 * 2 ^ 26 : Int).natAbs ≤ 5 := by
  refine ⟨rfl, by decide, rfl, by decide⟩

set_option maxRecDepth 100000 in
/-- The sweep ends within its fuel, after 32 sample points. -/
theorem sweepFrom_sweepFuel :
    sweepFrom sweepFuel F32.lit_neg_3_1416 = some sweepPoints ∧ sweepPoints.length = 32 := by
  decide

/-- The loop filling `X` and `sinusX` visits the points of `sweepFrom`. -/
theorem dataset_eq (sinf : F32 → F32) (fuel : Nat) (x : F32) (X sinusX : List F32) :
    dataset sinf fuel x X sinusX
      = (sweepFrom fuel x).map (fun xs => (X ++ xs, sinusX ++ xs.map sinf)) := by
  induction fuel generalizing x X sinusX with
  | zero => simp [dataset, sweepFrom]
  | succ fuel ih =>
    unfold dataset sweepFrom
    split
    · rw [ih]
      cases sweepFrom fuel (F32.add x F32.lit_0_2) <;> simp
    · simp

/-- The evaluation loop visits the points of `sweepFrom` and folds
`updateMaxError` over them. -/
theorem evalLoop_eq (predict : Model) (sinf : F32 → F32) (fuel : Nat) (x m : F32)
    (out : List Event) :
    evalLoop predict sinf fuel x m out
      = (sweepFrom fuel x).map (fun xs =>
          (out ++ xs.map (fun x => Event.coutSample x (sinf x) (predict x)),
           xs.foldl (fun m x => updateMaxError m (predict x) (sinf x)) m)) := by
  induction fuel generalizing x m out with
  | zero => simp [evalLoop, sweepFrom]
  | succ fuel ih =>
    unfold evalLoop sweepFrom
    split
    · simp only [ih]
      cases sweepFrom fuel (F32.add x F32.lit_0_2) <;> simp
    · simp

/-- The final `fMaxError` of the evaluation loop is the fold over the errors. -/
theorem foldl_updateMaxError (predict : Model) (sinf : F32 → F32) (xs : List F32) (m : F32) :
    xs.foldl (fun m x => updateMaxError m (predict x) (sinf x)) m
      = maxFold (xs.map (errorAt predict sinf)) m := by
  simp only [maxFold, List.foldl_map]
  rfl

theorem lt_nonneg {m e : F32} (hm : m.nonneg = true) (h : F32.lt m e = true) :
    e.nonneg = true := by
  cases m <;> cases e <;> simp_all [F32.lt, F32.nonneg]
  omega

theorem maxFold_nonneg (es : List F32) (m : F32) (hm : m.nonneg = true) :
    (maxFold es m).nonneg = true := by
  induction es generalizing m with
  | nil => simpa [maxFold] using hm
  | cons e es ih =>
    simp only [maxFold, List.foldl_cons]
    by_cases h : F32.lt m e = true
    · simp only [h, if_true]
      exact ih e (lt_nonneg hm h)
    · simp only [h]
      exact ih m hm

theorem lt_update {m e e' : F32} (hm : m.nonneg = true) (h : F32.lt m e = false) :
    F32.lt (if F32.lt m e' then e' else m) e = false := by
  by_cases h' : F32.lt m e' = true
  · simp only [h', if_true]
    cases m <;> cases e <;> cases e' <;> simp_all [F32.lt, F32.nonneg]
    omega
  · simpa [h'] using h

theorem update_nonneg {m e : F32} (hm : m.nonneg = true) :
    (if F32.lt m e then e else m).nonneg = true := by
  by_cases h : F32.lt m e = true
  · simpa [h] using lt_nonneg hm h
  · simpa [h] using hm

theorem lt_maxFold (es : List F32) (m e : F32) (hm : m.nonneg = true)
    (h : F32.lt m e = false) : F32.lt (maxFold es m) e = false := by
  induction es generalizing m with
  | nil => simpa [maxFold] using h
  | cons e' es ih =>
    simp only [maxFold, List.foldl_cons]
    exact ih _ (update_nonneg hm) (lt_update hm h)

theorem lt_self_update (m e : F32) (he : e ≠ F32.nan) :
    F32.lt (if F32.lt m e then e else m) e = false := by
  by_cases h : F32.lt m e = true
  · simp only [h, if_true]
    cases e <;> simp_all [F32.lt]
  · simp [h]

/-- The fold is an upper bound of every error that is not NaN. -/
theorem maxFold_upper (es : List F32) (m : F32) (hm : m.nonneg = true) :
    ∀ e ∈ es, e ≠ F32.nan → F32.lt (maxFold es m) e = false := by
  induction es generalizing m with
  | nil => simp
  | cons e' es ih =>
    intro e he hnan
    simp only [maxFold, List.foldl_cons]
    rcases List.mem_cons.mp he with rfl | he
    · exact lt_maxFold es _ e (update_nonneg hm) (lt_self_update m e hnan)
    · exact ih _ (update_nonneg hm) e he hnan

/-- The fold is its start value or one of the errors. -/
theorem maxFold_attained (es : List F32) (m : F32) :
    maxFold es m = m ∨ maxFold es m ∈ es := by
  induction es generalizing m with
  | nil => simp [maxFold]
  | cons e es ih =>
    simp only [maxFold, List.foldl_cons]
    by_cases h : F32.lt m e = true
    · simp only [h, if_true]
      rcases ih e with h1 | h1
      · right; rw [show List.foldl (fun m e => if F32.lt m e then e else m) e es = e from h1]
        exact List.mem_cons_self _ _
      · right; exact List.mem_cons_of_mem _ h1
    · simp only [h]
      rcases ih m with h1 | h1
      · left; exact h1
      · right; exact List.mem_cons_of_mem _ h1

/-- The fold from `0.f` is infinite exactly when one of the errors is `+inf`. -/
theorem maxFold_inf_iff (es : List F32) :
    maxFold es F32.zero = F32.inf false ↔ F32.inf false ∈ es := by
  constructor
  · intro h
    rcases maxFold_attained es F32.zero with h1 | h1
    · rw [h] at h1; simp [F32.zero] at h1
    · rwa [h] at h1
  · intro h
    have hn := maxFold_nonneg es F32.zero (by simp [F32.zero, F32.nonneg])
    have hu := maxFold_upper es F32.zero (by simp [F32.zero, F32.nonneg]) _ h (by simp)
    revert hn hu
    cases maxFold es F32.zero <;> simp [F32.lt, F32.nonneg]

/-! ## Facts about the frame loop -/

theorem frameLoop_nil (w : World) (V : Bool) (ID k : Nat) (i : Int) :
    frameLoop w V ID [] k i = ⟨[], LoopExit.awaiting, i⟩ := by
  simp [frameLoop]

theorem frameLoop_false (w : World) (V : Bool) (ID k : Nat) (i : Int) (rest : List Bool) :
    frameLoop w V ID (false :: rest) k i = ⟨[Event.isRunning false], LoopExit.stopped, i⟩ := by
  simp [frameLoop]

theorem frameLoop_cvarrToMat (w : World) (V : Bool) (ID k : Nat) (i : Int) (rest : List Bool)
    (h : w.cvFault k = Fault.cvarrToMat) :
    frameLoop w V ID (true :: rest) k i
      = ⟨[Event.isRunning true, Event.shmWait, Event.shmLock, Event.cvarrToMat],
          LoopExit.threw Exn.cvError, i⟩ := by
  simp [frameLoop, h]

theorem frameLoop_resize (w : World) (V : Bool) (ID k : Nat) (i : Int) (rest : List Bool)
    (h : w.cvFault k = Fault.resize) :
    frameLoop w V ID (true :: rest) k i
      = ⟨[Event.isRunning true, Event.shmWait, Event.shmLock, Event.cvarrToMat,
          Event.resize 256 196], LoopExit.threw Exn.cvError, i⟩ := by
  simp [frameLoop, h]

theorem frameLoop_ok (w : World) (V : Bool) (ID k : Nat) (i : Int) (rest : List Bool)
    (h : w.cvFault k = Fault.none) :
    frameLoop w V ID (true :: rest) k i
      = ⟨Event.isRunning true :: (iterationBody w V ID k i
            ++ (frameLoop w V ID rest (k + 1) (if V then wrapInt32 (i + 1) else i)).trace),
          (frameLoop w V ID rest (k + 1) (if V then wrapInt32 (i + 1) else i)).exit,
          (frameLoop w V ID rest (k + 1) (if V then wrapInt32 (i + 1) else i)).i⟩ := by
  simp [frameLoop, h, iterationBody]

theorem answersOf_append (a b : List Event) :
    answersOf (a ++ b) = answersOf a ++ answersOf b := by
  simp [answersOf, List.filterMap_append]

theorem sendCount_append (a b : List Event) :
    sendCount (a ++ b) = sendCount a + sendCount b := by
  simp [sendCount, List.countP_append]

theorem answersOf_body (w : World) (V : Bool) (ID k : Nat) (i : Int) :
    answersOf (iterationBody w V ID k i) = [] := by
  cases V <;> rfl

theorem sendCount_body (w : World) (V : Bool) (ID k : Nat) (i : Int) :
    sendCount (iterationBody w V ID k i) = 1 := by
  cases V <;> rfl

theorem segment_body_append (w : World) (V : Bool) (ID k : Nat) (i : Int) (tr : List Event) :
    segment (iterationBody w V ID k i ++ tr) = iterationBody w V ID k i ++ segment tr := by
  cases V <;> rfl

theorem iterations_body_append (w : World) (V : Bool) (ID k : Nat) (i : Int)
    (tr : List Event) :
    iterations (iterationBody w V ID k i ++ tr) = iterations tr := by
  cases V <;> rfl

/-- The trace of the loop is empty or starts with a check. -/
theorem segment_frameLoop (w : World) (V : Bool) (ID : Nat) (script : List Bool) (k : Nat)
    (i : Int) : segment (frameLoop w V ID script k i).trace = [] := by
  match script with
  | [] => simp [frameLoop_nil, segment]
  | false :: rest => simp [frameLoop_false, segment]
  | true :: rest =>
    cases h : w.cvFault k
    · simp [frameLoop_ok _ _ _ _ _ _ h, segment]
    · simp [frameLoop_cvarrToMat _ _ _ _ _ _ h, segment]
    · simp [frameLoop_resize _ _ _ _ _ _ h, segment]

theorem iterations_true (tr : List Event) :
    iterations (Event.isRunning true :: tr) = segment tr :: iterations tr := rfl

theorem replicate_true_ne (n : Nat) : List.replicate n true ++ [false] ≠ [true] := by
  cases n with
  | zero => simp
  | succ n => cases n <;> simp [List.replicate_succ]

/-- Claim C1.  In the frame loop, whenever the answers that `od4.isRunning()`
returned are `n` times `true` followed by the first `false`, the loop was left
through its condition, at that first `false` of the answers and not before; it
performed exactly `n` iterations, each of them called `od4.send` exactly once,
so `n` events were sent, whatever the verbose flag; the last event is the
check that answered `false`. -/
theorem frameLoop_iterations (w : World) (VERBOSE : Bool) (ID : Nat) (script : List Bool)
    (k : Nat) (i : Int) (n : Nat)
    (h : answersOf (frameLoop w VERBOSE ID script k i).trace
          = List.replicate n true ++ [false]) :
    (frameLoop w VERBOSE ID script k i).exit = LoopExit.stopped
    ∧ script.take (n + 1) = List.replicate n true ++ [false]
    ∧ (iterations (frameLoop w VERBOSE ID script k i).trace).length = n
    ∧ (iterations (frameLoop w VERBOSE ID script k i).trace).map sendCount
        = List.replicate n 1
    ∧ sendCount (frameLoop w VERBOSE ID script k i).trace = n
    ∧ (frameLoop w VERBOSE ID script k i).trace.getLast? = some (Event.isRunning false) := by
  induction script generalizing k i n with
  | nil =>
    rw [frameLoop_nil] at h
    simp [answersOf] at h
  | cons a rest ih =>
    cases a with
    | false =>
      rw [frameLoop_false] at h ⊢
      have hn : n = 0 := by
        cases n with
        | zero => rfl
        | succ n => simp [answersOf, List.replicate_succ] at h
      subst hn
      simp [iterations, sendCount, Event.kind]
    | true =>
      cases hf : w.cvFault k with
      | cvarrToMat =>
        rw [frameLoop_cvarrToMat _ _ _ _ _ _ hf] at h
        exact absurd h.symm (replicate_true_ne n)
      | resize =>
        rw [frameLoop_resize _ _ _ _ _ _ hf] at h
        exact absurd h.symm (replicate_true_ne n)
      | none =>
        rw [frameLoop_ok _ _ _ _ _ _ hf] at h ⊢
        simp only [] at h ⊢
        have hans : answersOf (Event.isRunning true :: (iterationBody w VERBOSE ID k i
            ++ (frameLoop w VERBOSE ID rest (k + 1)
              (if VERBOSE then wrapInt32 (i + 1) else i)).trace))
            = true :: answersOf (frameLoop w VERBOSE ID rest (k + 1)
              (if VERBOSE then wrapInt32 (i + 1) else i)).trace := by
          rw [← List.singleton_append, answersOf_append, answersOf_append, answersOf_body]
          rfl
        rw [hans] at h
        cases n with
        | zero => simp at h
        | succ n =>
          rw [List.replicate_succ, List.cons_append, List.cons.injEq] at h
          obtain ⟨h1, h2, h3, h4, h5, h6⟩ := ih (k + 1) _ n h.2
          refine ⟨h1, ?_, ?_, ?_, ?_, ?_⟩
          · simp [List.take_succ_cons, h2, List.replicate_succ]
          · rw [iterations_true, iterations_body_append, List.length_cons, h3]
          · rw [iterations_true, iterations_body_append, segment_body_append, segment_frameLoop,
              List.map_cons, h4, List.append_nil, sendCount_body, List.replicate_succ]
          · rw [← List.singleton_append, sendCount_append, sendCount_append, sendCount_body, h5]
            simp [sendCount, Event.kind]
            omega
          · rw [← List.cons_append, List.getLast?_append, h6]
            simp

/-- When the answers start with `n` times `true` and then `false`, and neither
`cv::cvarrToMat` nor `cv::resize` throws in these `n` iterations, those are the
answers the loop receives. -/
theorem frameLoop_answers (w : World) (V : Bool) (ID : Nat) (n : Nat) (rest : List Bool)
    (k : Nat) (i : Int) (hf : ∀ j, j < n → w.cvFault (k + j) = Fault.none) :
    answersOf (frameLoop w V ID (List.replicate n true ++ false :: rest) k i).trace
      = List.replicate n true ++ [false] := by
  induction n generalizing k i with
  | zero => simp [frameLoop_false, answersOf]
  | succ n ih =>
    have h0 : w.cvFault k = Fault.none := by simpa using hf 0 (Nat.succ_pos n)
    rw [List.replicate_succ, List.cons_append, frameLoop_ok _ _ _ _ _ _ h0]
    simp only []
    rw [← List.singleton_append, answersOf_append, answersOf_append, answersOf_body,
      ih (k + 1) _ (fun j hj => by
        have := hf (j + 1) (Nat.succ_lt_succ hj)
        rwa [show k + (j + 1) = k + 1 + j by omega] at this)]
    rfl

theorem train_eq (w : World) : train w = some (trainingEvents w) := by
  unfold train
  rw [dataset_eq, sweepFrom_sweepFuel.1]
  simp [trainingEvents]

theorem evalLoop_sweep (net2 : Model) (sinf : F32 → F32) :
    evalLoop net2 sinf sweepFuel F32.lit_neg_3_1416 F32.zero []
      = some (sweepPoints.map (fun x => Event.coutSample x (sinf x) (net2 x)),
              maxError net2 sinf) := by
  rw [evalLoop_eq, sweepFrom_sweepFuel.1]
  simp [maxError, foldl_updateMaxError]

/-- The valid branch when no model file is found. -/
theorem attached_noFile (w : World) (retCode : Int) (V T : Bool) (ID : Nat) (NAME : String)
    (h : modelFile w T = none) :
    attached w retCode V T ID NAME
      = ⟨headEvents w NAME ++ [Event.load "net" false], Outcome.uncaught Exn.loadFailed⟩ := by
  have hT : T = false := by
    cases T
    · rfl
    · simp [modelFile] at h
  subst hT
  simp only [modelFile, Bool.false_eq_true, if_false] at h
  simp [attached, h, headEvents]

/-- The valid branch when the model `net2` is loaded. -/
theorem attached_loaded (w : World) (retCode : Int) (V T : Bool) (ID : Nat) (NAME : String)
    (net2 : Model) (h : modelFile w T = some net2) :
    (attached w retCode V T ID NAME).trace
        = preLoop w T NAME net2 ++ (frameLoop w V ID w.running 0 0).trace
            ++ (closing retCode (frameLoop w V ID w.running 0 0).exit).1
    ∧ (attached w retCode V T ID NAME).outcome
        = (closing retCode (frameLoop w V ID w.running 0 0).exit).2 := by
  have htrain : (if T = true then train w else some [])
      = some (if T = true then trainingEvents w else []) := by
    cases T <;> simp [train_eq]
  unfold attached
  simp only [htrain]
  rw [show (if T = true then some w.trained else w.netFile) = some net2 from h]
  simp only [evalLoop_sweep]
  cases hx : (frameLoop w V ID w.running 0 0).exit <;>
    simp [preLoop, headEvents, closing, hx]

theorem count_eq_zero (w : World) (key : String) : count w key = 0 ↔ w.args key = none := by
  unfold count
  cases w.args key <;> simp

/-- The four ways through `main`: usage error, a flag that `std::stoi` rejects,
shared memory not valid, shared memory valid. -/
theorem main_cases (w : World) :
    (missingFlag w ∧ main w = ⟨usage w.argv0, Outcome.exit 1⟩)
    ∨ (¬ missingFlag w ∧ main w = ⟨[], Outcome.uncaught Exn.stoiFailed⟩)
    ∨ (¬ missingFlag w ∧ w.shmValid (nameOf w) = false ∧
        ∃ cid, main w
          = ⟨[Event.od4Open cid, Event.shmNew (nameOf w) false, failedLine w], Outcome.exit 0⟩)
    ∨ (¬ missingFlag w ∧ w.shmValid (nameOf w) = true ∧
        ∃ cid ID traincnn, w.stoi (arg w "traincnn") = some traincnn ∧
          main w
            = ⟨[Event.od4Open cid, Event.shmNew (nameOf w) true]
                ++ (attached w 0 (verboseFlag w) (decide (traincnn = 1)) ID (nameOf w)).trace,
               (attached w 0 (verboseFlag w) (decide (traincnn = 1)) ID (nameOf w)).outcome⟩) := by
  by_cases hm : missingFlag w
  · left
    refine ⟨hm, ?_⟩
    unfold main
    rw [if_pos (by simpa [count_eq_zero, missingFlag] using hm)]
  · right
    have hm' : ¬ (count w "name" = 0 ∨ count w "cid" = 0 ∨ count w "traincnn" = 0) := by
      simpa [count_eq_zero, missingFlag] using hm
    unfold main
    rw [if_neg hm']
    cases ht : w.stoi (arg w "traincnn") with
    | none => left; exact ⟨hm, rfl⟩
    | some t =>
      simp only []
      cases hi : (if (arg w "id").length ≠ 0 then w.stoi (arg w "id") else some 0) with
      | none => left; exact ⟨hm, rfl⟩
      | some id =>
        simp only []
        cases hc : w.stoi (arg w "cid") with
        | none => left; exact ⟨hm, rfl⟩
        | some cid =>
          simp only []
          right
          cases hv : w.shmValid (nameOf w) with
          | false =>
            left
            refine ⟨hm, rfl, (cid % 2 ^ 16).toNat, ?_⟩
            have hv' : w.shmValid (if (arg w "name").length ≠ 0 then arg w "name" else "/cam0")
                = false := hv
            simp only [hv', Bool.false_eq_true, if_false]
            rfl
          | true =>
            right
            refine ⟨hm, rfl, (cid % 2 ^ 16).toNat, (id % 2 ^ 32).toNat, t, rfl, ?_⟩
            have hv' : w.shmValid (if (arg w "name").length ≠ 0 then arg w "name" else "/cam0")
                = true := hv
            simp only [hv', if_true]
            rfl

/-! ## Kinds of event of each part -/

theorem epochCallbacks_kinds (w : World) (epochs remaining iEpoch : Nat) :
    ∀ e ∈ epochCallbacks w epochs remaining iEpoch, e.kind = Kind.coutLoss := by
  induction remaining generalizing iEpoch with
  | zero => simp [epochCallbacks]
  | succ r ih =>
    intro e he
    simp only [epochCallbacks, List.mem_append] at he
    rcases he with he | he
    · simp only [onEnumerateEpoch] at he
      split at he
      · simp at he
      · simp only [List.mem_singleton] at he
        subst he
        rfl
    · exact ih _ e he

theorem trainingEvents_kinds (w : World) :
    ∀ e ∈ trainingEvents w, e.kind ∈ preLoopKinds := by
  intro e he
  simp only [trainingEvents, List.mem_append, List.mem_cons, List.mem_singleton,
    List.not_mem_nil, or_false] at he
  rcases he with (he | he) | he
  · rcases he with rfl | rfl <;> simp [Event.kind, preLoopKinds, loopKinds]
  · rw [epochCallbacks_kinds w _ _ _ e he]; simp [Event.kind, preLoopKinds, loopKinds]
  · rcases he with rfl | rfl | rfl <;> simp [Event.kind, preLoopKinds, loopKinds]

theorem headEvents_kinds (w : World) (NAME : String) :
    ∀ e ∈ headEvents w NAME, e.kind ∈ preLoopKinds := by
  intro e he
  simp only [headEvents, List.mem_cons, List.mem_singleton, List.not_mem_nil, or_false] at he
  rcases he with rfl | rfl | rfl | rfl | rfl <;> simp [Event.kind, preLoopKinds, loopKinds]

theorem preLoop_kinds (w : World) (T : Bool) (NAME : String) (net2 : Model) :
    ∀ e ∈ preLoop w T NAME net2, e.kind ∈ preLoopKinds := by
  intro e he
  simp only [preLoop, List.mem_append, List.mem_cons, List.mem_singleton, List.mem_map,
    List.not_mem_nil, or_false] at he
  rcases he with (((he | he) | he) | he) | he
  · exact headEvents_kinds w NAME e he
  · cases T
    · simp at he
    · exact trainingEvents_kinds w e (by simpa using he)
  · subst he; simp [Event.kind, preLoopKinds, loopKinds]
  · obtain ⟨x, -, rfl⟩ := he; simp [Event.kind, preLoopKinds, loopKinds]
  · rcases he with rfl | rfl <;> simp [Event.kind, preLoopKinds, loopKinds]

theorem body_kinds (w : World) (V : Bool) (ID k : Nat) (i : Int) :
    ∀ e ∈ iterationBody w V ID k i, e.kind ∈ loopKinds := by
  intro e he
  cases V <;>
    simp only [iterationBody, verboseBlock, List.mem_append, List.mem_cons, List.mem_singleton,
      List.not_mem_nil, or_false, if_true, if_false, Bool.false_eq_true] at he
  · rcases he with (rfl | rfl | rfl | rfl | rfl) | rfl <;> simp [Event.kind, preLoopKinds, loopKinds]
  · rcases he with ((rfl | rfl | rfl | rfl | rfl) | (rfl | rfl | rfl)) | rfl <;> simp [Event.kind, preLoopKinds, loopKinds]

theorem frameLoop_kinds (w : World) (V : Bool) (ID : Nat) (script : List Bool) (k : Nat)
    (i : Int) : ∀ e ∈ (frameLoop w V ID script k i).trace, e.kind ∈ loopKinds := by
  induction script generalizing k i with
  | nil => simp [frameLoop_nil]
  | cons a rest ih =>
    intro e he
    cases a with
    | false =>
      simp only [frameLoop_false, List.mem_singleton] at he
      subst he; simp [Event.kind, preLoopKinds, loopKinds]
    | true =>
      cases hf : w.cvFault k with
      | cvarrToMat =>
        simp only [frameLoop_cvarrToMat _ _ _ _ _ _ hf, List.mem_cons, List.mem_singleton,
          List.not_mem_nil, or_false] at he
        rcases he with rfl | rfl | rfl | rfl <;> simp [Event.kind, preLoopKinds, loopKinds]
      | resize =>
        simp only [frameLoop_resize _ _ _ _ _ _ hf, List.mem_cons, List.mem_singleton,
          List.not_mem_nil, or_false] at he
        rcases he with rfl | rfl | rfl | rfl | rfl <;> simp [Event.kind, preLoopKinds, loopKinds]
      | none =>
        simp only [frameLoop_ok _ _ _ _ _ _ hf, List.mem_cons, List.mem_append] at he
        rcases he with rfl | he | he
        · simp [Event.kind, loopKinds]
        · exact body_kinds _ _ _ _ _ e he
        · exact ih _ _ e he

theorem closing_kinds (retCode : Int) (x : LoopExit) :
    ∀ e ∈ (closing retCode x).1, e.kind = Kind.cvReleaseImageHeader := by
  intro e he
  cases x <;> simp [closing] at he
  subst he; rfl

/-- Every `od4.send` of the frame loop carries angle `0` and distance `0`. -/
theorem frameLoop_send (w : World) (V : Bool) (ID : Nat) (script : List Bool) (k : Nat)
    (i : Int) (a d : F32) (t s : Nat)
    (he : Event.send a d t s ∈ (frameLoop w V ID script k i).trace) :
    a = F32.zero ∧ d = F32.zero := by
  induction script generalizing k i with
  | nil => simp [frameLoop_nil] at he
  | cons b rest ih =>
    cases b with
    | false => simp [frameLoop_false] at he
    | true =>
      cases hf : w.cvFault k with
      | cvarrToMat => simp [frameLoop_cvarrToMat _ _ _ _ _ _ hf] at he
      | resize => simp [frameLoop_resize _ _ _ _ _ _ hf] at he
      | none =>
        simp only [frameLoop_ok _ _ _ _ _ _ hf, List.mem_cons, List.mem_append] at he
        rcases he with he | he | he
        · simp at he
        · cases V <;> simp [iterationBody, verboseBlock] at he <;> exact ⟨he.1, he.2.1⟩
        · exact ih _ _ he

/-- The five shapes of a run of `main`. -/
theorem main_shape (w : World) :
    (missingFlag w ∧ main w = ⟨usage w.argv0, Outcome.exit 1⟩)
    ∨ (¬ missingFlag w ∧ main w = ⟨[], Outcome.uncaught Exn.stoiFailed⟩)
    ∨ (¬ missingFlag w ∧ w.shmValid (nameOf w) = false ∧
        ∃ cid, main w
          = ⟨[Event.od4Open cid, Event.shmNew (nameOf w) false, failedLine w], Outcome.exit 0⟩)
    ∨ (¬ missingFlag w ∧
        ∃ cid traincnn, w.stoi (arg w "traincnn") = some traincnn ∧
          modelFile w (decide (traincnn = 1)) = none ∧
          main w
            = ⟨[Event.od4Open cid, Event.shmNew (nameOf w) true]
                ++ (headEvents w (nameOf w) ++ [Event.load "net" false]),
               Outcome.uncaught Exn.loadFailed⟩)
    ∨ (¬ missingFlag w ∧
        ∃ cid ID traincnn net2, w.stoi (arg w "traincnn") = some traincnn ∧
          modelFile w (decide (traincnn = 1)) = some net2 ∧
          (main w).trace
            = [Event.od4Open cid, Event.shmNew (nameOf w) true]
                ++ (preLoop w (decide (traincnn = 1)) (nameOf w) net2
                ++ (frameLoop w (verboseFlag w) ID w.running 0 0).trace
                ++ (closing 0 (frameLoop w (verboseFlag w) ID w.running 0 0).exit).1) ∧
          (main w).outcome = (closing 0 (frameLoop w (verboseFlag w) ID w.running 0 0).exit).2) := by
  rcases main_cases w with h | h | h | ⟨hm, -, cid, ID, t, ht, hmain⟩
  · exact Or.inl h
  · exact Or.inr (Or.inl h)
  · exact Or.inr (Or.inr (Or.inl h))
  · right; right; right
    cases hfile : modelFile w (decide (t = 1)) with
    | none =>
      left
      refine ⟨hm, cid, t, ht, hfile, ?_⟩
      rw [hmain, attached_noFile _ _ _ _ _ _ hfile]
    | some net2 =>
      right
      refine ⟨hm, cid, ID, t, net2, ht, hfile, ?_, ?_⟩
      · rw [hmain, (attached_loaded _ _ _ _ _ _ net2 hfile).1]
      · rw [hmain, (attached_loaded _ _ _ _ _ _ net2 hfile).2]

/-! ## Claims about `main` -/

/-- Claim C2.  Every detection event that `main` passes to `od4.send` has
`azimuthAngle = 0` and `distance = 0`, in every world: whatever the frames, the
trained or stored model, the verbose flag and the iteration. -/
theorem send_placeholder (w : World) (a d : F32) (t s : Nat)
    (h : Event.send a d t s ∈ (main w).trace) : a = F32.zero ∧ d = F32.zero := by
  rcases main_shape w with ⟨-, hm⟩ | ⟨-, hm⟩ | ⟨-, -, cid, hm⟩ | ⟨-, cid, tc, -, -, hm⟩
      | ⟨-, cid, ID, tc, net2, -, -, hm, -⟩
  · rw [hm] at h; simp [usage] at h
  · rw [hm] at h; simp at h
  · rw [hm] at h; simp [failedLine] at h
  · rw [hm] at h; simp [headEvents] at h
  · rw [hm] at h
    simp only [List.mem_append, List.mem_cons, List.mem_singleton, List.not_mem_nil,
      or_false] at h
    rcases h with (h | h) | (h | h) | h
    · simp at h
    · simp at h
    · have := preLoop_kinds _ _ _ _ _ h
      simp [Event.kind, preLoopKinds] at this
    · exact frameLoop_send _ _ _ _ _ _ _ _ _ _ h
    · have := closing_kinds _ _ _ h
      simp [Event.kind] at this

/-- Claim C3.  When one of the flags `name`, `cid`, `traincnn` is absent, `main`
writes the usage text to `std::cerr`, the six lines below built from `argv[0]`,
and returns `1`; the run consists of these six lines only, so nothing is
attached, opened, trained, loaded or sent. -/
theorem usage_exit (w : World)
    (h : w.args "name" = none ∨ w.args "cid" = none ∨ w.args "traincnn" = none) :
    (main w).trace
      = [ Event.cerr (w.argv0 ++ " accesses video data using shared memory provided using the command line parameter --name=."),
          Event.cerr ("Usage:   " ++ w.argv0 ++ " --cid=<OpenDaVINCI session> --name=<name for the associated shared memory> [--id=<sender stamp>] [--verbose]"),
          Event.cerr "         --name:    name of the shared memory to use",
          Event.cerr "         --traincnn: set 1 or 0 for training the tiny dnn example and saving a net binary",
          Event.cerr "         --verbose: when set, a thumbnail of the image contained in the shared memory is sent",
          Event.cerr ("Example: " ++ w.argv0 ++ " --cid=111 --name=cam0 --traincnn=1") ]
    ∧ (main w).outcome = Outcome.exit 1
    ∧ (main w).trace.length = 6
    ∧ ∀ e ∈ (main w).trace, e.kind = Kind.cerr := by
  have hmain : main w = ⟨usage w.argv0, Outcome.exit 1⟩ := by
    unfold main
    rw [if_pos (by simpa [count_eq_zero] using h)]
  rw [hmain]
  refine ⟨rfl, rfl, rfl, ?_⟩
  intro e he
  simp only [usage, List.mem_cons, List.mem_singleton, List.not_mem_nil, or_false] at he
  rcases he with rfl | rfl | rfl | rfl | rfl | rfl <;> rfl

/-- Claim C4.  With all required flags, when the shared memory is constructed
and is not valid, `main` writes the failure message to `std::cerr` and performs
none of: training, save, load, the max-error evaluation, shared-memory wait or
lock, resize, snapshot write, `od4.send`. -/
theorem invalid_no_processing (w : World)
    (hflags : w.args "name" ≠ none ∧ w.args "cid" ≠ none ∧ w.args "traincnn" ≠ none)
    (h : Event.shmNew (nameOf w) false ∈ (main w).trace) :
    failedLine w ∈ (main w).trace
    ∧ ∀ e ∈ (main w).trace, e.kind ∉ processingKinds := by
  rcases main_shape w with ⟨hmiss, -⟩ | ⟨-, hm⟩ | ⟨-, -, cid, hm⟩ | ⟨-, cid, tc, -, -, hm⟩
      | ⟨-, cid, ID, tc, net2, -, -, hm, -⟩
  · unfold missingFlag at hmiss
    tauto
  · rw [hm] at h; simp at h
  · rw [hm]
    refine ⟨by simp, ?_⟩
    intro e he
    simp only [List.mem_cons, List.mem_singleton, List.not_mem_nil, or_false] at he
    rcases he with rfl | rfl | rfl <;> simp [Event.kind, processingKinds, failedLine]
  · rw [hm] at h; simp [headEvents] at h
  · rw [hm] at h
    simp only [List.mem_append, List.mem_cons, List.mem_singleton, List.not_mem_nil,
      or_false] at h
    rcases h with (h | h) | (h | h) | h
    · simp at h
    · simp at h
    · have := preLoop_kinds _ _ _ _ _ h
      simp [Event.kind, preLoopKinds] at this
    · have := frameLoop_kinds _ _ _ _ _ _ _ h
      simp [Event.kind, loopKinds] at this
    · have := closing_kinds _ _ _ h
      simp [Event.kind] at this

set_option maxRecDepth 1000000 in
/-- Claim C5, the code at `--cid=111 --name=cam0 --traincnn=0` when no shared
memory `cam0` can be attached: the failure is reported on `std::cerr` and the
exit status is `0`. -/
theorem invalid_exit_zero :
    (main wNoShm).trace
      = [Event.od4Open 111, Event.shmNew "cam0" false,
         Event.cerr "example: Failed to access shared memory \x27cam0\x27."]
    ∧ (main wNoShm).outcome = Outcome.exit 0 := by
  decide

/-! ## Model operations -/

theorem modelOps_append (a b : List Event) : modelOps (a ++ b) = modelOps a ++ modelOps b := by
  simp [modelOps, List.filter_append]

theorem modelOps_eq_nil (tr : List Event)
    (h : ∀ e ∈ tr, e.kind ∉ [Kind.fit, Kind.save, Kind.load]) : modelOps tr = [] := by
  unfold modelOps
  rw [List.filter_eq_nil_iff]
  intro e he
  simpa using h e he

theorem modelOps_training (w : World) :
    modelOps (trainingEvents w)
      = [Event.fit sweepPoints (sweepPoints.map w.sinf) 16 2000, Event.save "net"] := by
  unfold trainingEvents
  rw [modelOps_append, modelOps_append,
    modelOps_eq_nil (epochCallbacks w 2000 2000 0) (fun e he => by
      rw [epochCallbacks_kinds _ _ _ _ e he]; decide)]
  rfl

theorem modelOps_frameLoop (w : World) (V : Bool) (ID : Nat) (script : List Bool) (k : Nat)
    (i : Int) : modelOps (frameLoop w V ID script k i).trace = [] := by
  apply modelOps_eq_nil
  intro e he
  have := frameLoop_kinds _ _ _ _ _ _ e he
  revert this
  generalize e.kind = c
  revert c
  decide

theorem modelOps_closing (retCode : Int) (x : LoopExit) :
    modelOps (closing retCode x).1 = [] := by
  cases x <;> rfl

theorem modelOps_preLoop (w : World) (T : Bool) (NAME : String) (net2 : Model) :
    modelOps (preLoop w T NAME net2)
      = (if T then [Event.fit sweepPoints (sweepPoints.map w.sinf) 16 2000, Event.save "net"]
          else []) ++ [Event.load "net" true] := by
  unfold preLoop
  rw [modelOps_append, modelOps_append, modelOps_append, modelOps_append,
    modelOps_eq_nil (sweepPoints.map _) (fun e he => by
      obtain ⟨x, -, rfl⟩ := List.mem_map.mp he
      simp [Event.kind])]
  cases T
  · rfl
  · simp only [if_true, modelOps_training]
    rfl

/-- Claim C6, as the code has it.  In every run that reaches the model stage:
when the `traincnn` flag equals `1` the network is trained over the 32 sample
points and saved under the name `net`, and then `net2` is loaded from `net`;
when the flag is not `1` the model is loaded from `net` (the load fails when
there is no such file) and nothing is trained or saved. -/
theorem model_acquisition (w : World)
    (h : Event.shmNew (nameOf w) true ∈ (main w).trace) :
    (w.stoi (arg w "traincnn") = some 1 →
      modelOps (main w).trace
        = [Event.fit sweepPoints (sweepPoints.map w.sinf) 16 2000, Event.save "net",
           Event.load "net" true])
    ∧ (w.stoi (arg w "traincnn") ≠ some 1 →
      modelOps (main w).trace = [Event.load "net" w.netFile.isSome]) := by
  rcases main_shape w with ⟨-, hm⟩ | ⟨-, hm⟩ | ⟨-, -, cid, hm⟩ | ⟨-, cid, tc, ht, hfile, hm⟩
      | ⟨-, cid, ID, tc, net2, ht, hfile, hm, -⟩
  · rw [hm] at h; simp [usage] at h
  · rw [hm] at h; simp at h
  · rw [hm] at h; simp [failedLine] at h
  · have htc : tc ≠ 1 := by
      intro h1
      simp [modelFile, h1] at hfile
    have hnet : w.netFile = none := by simpa [modelFile, htc] using hfile
    rw [hm, ht, hnet]
    refine ⟨fun h1 => absurd (Option.some.inj h1) htc, fun _ => ?_⟩
    rfl
  · rw [hm, ht, modelOps_append, modelOps_append, modelOps_append, modelOps_preLoop,
      modelOps_frameLoop, modelOps_closing]
    constructor
    · intro h1
      have h1 : tc = 1 := Option.some.inj h1
      simp [h1, modelOps, Event.kind]
    · intro h1
      have h1 : tc ≠ 1 := fun h2 => h1 (by rw [h2])
      have hnet : w.netFile = some net2 := by simpa [modelFile, h1] using hfile
      simp [h1, hnet, modelOps, Event.kind]

set_option maxRecDepth 1000000 in
/-- Claim C6 as stated fails: with `--traincnn=1` the run trains, saves `net`
and loads `net` as well. -/
theorem train_then_load :
    wTrain.stoi (arg wTrain "traincnn") = some 1
    ∧ Event.shmNew (nameOf wTrain) true ∈ (main wTrain).trace
    ∧ Event.save "net" ∈ (main wTrain).trace
    ∧ Event.load "net" true ∈ (main wTrain).trace := by
  decide

/-! ## The maximum error -/

/-- What the evaluation sweep computes, for every prediction function and every
`sinf`: a value that is not NaN and not negative, that no error of the sweep
other than a NaN exceeds, that is `0` or one of the errors, and that is finite
exactly when no error is `+inf`. -/
theorem maxError_spec (predict : Model) (sinf : F32 → F32) :
    (maxError predict sinf).nonneg = true
    ∧ (∀ x ∈ sweepPoints, errorAt predict sinf x ≠ F32.nan →
        F32.lt (maxError predict sinf) (errorAt predict sinf x) = false)
    ∧ (maxError predict sinf = F32.zero
        ∨ ∃ x ∈ sweepPoints, maxError predict sinf = errorAt predict sinf x)
    ∧ ((maxError predict sinf).isFinite = true
        ↔ ∀ x ∈ sweepPoints, errorAt predict sinf x ≠ F32.inf false) := by
  have h0 : F32.zero.nonneg = true := by simp [F32.zero, F32.nonneg]
  have hn := maxFold_nonneg (sweepPoints.map (errorAt predict sinf)) F32.zero h0
  refine ⟨hn, ?_, ?_, ?_⟩
  · intro x hx hnan
    exact maxFold_upper _ _ h0 _ (List.mem_map_of_mem _ hx) hnan
  · rcases maxFold_attained (sweepPoints.map (errorAt predict sinf)) F32.zero with h | h
    · exact Or.inl h
    · obtain ⟨x, hx, hxe⟩ := List.mem_map.mp h
      exact Or.inr ⟨x, hx, hxe.symm⟩
  · have hinf := maxFold_inf_iff (sweepPoints.map (errorAt predict sinf))
    have hfin : (maxError predict sinf).isFinite = true
        ↔ maxError predict sinf ≠ F32.inf false := by
      unfold maxError at hn ⊢
      revert hn
      cases maxFold (sweepPoints.map (errorAt predict sinf)) F32.zero <;>
        simp [F32.nonneg, F32.isFinite]
    rw [hfin]
    unfold maxError
    rw [Ne, hinf, List.mem_map]
    constructor
    · intro h x hx hxe
      exact h ⟨x, hx, hxe⟩
    · rintro h ⟨x, hx, hxe⟩
      exact h x hx hxe

theorem coutMaxError_mem_preLoop (w : World) (T : Bool) (NAME : String) (net2 : Model)
    (v : F32) (h : Event.coutMaxError v ∈ preLoop w T NAME net2) :
    v = maxError net2 w.sinf := by
  simp only [preLoop, List.mem_append, List.mem_cons, List.mem_singleton, List.mem_map,
    List.not_mem_nil, or_false] at h
  rcases h with (((h | h) | h) | h) | h
  · simp [headEvents] at h
  · cases T
    · simp at h
    · simp only [if_true, trainingEvents, List.mem_append, List.mem_cons, List.mem_singleton,
        List.not_mem_nil, or_false] at h
      rcases h with (h | h) | h
      · simp at h
      · have := epochCallbacks_kinds _ _ _ _ _ h
        simp [Event.kind] at this
      · simp at h
  · simp at h
  · obtain ⟨x, -, hx⟩ := h
    simp at hx
  · simpa using h

/-- In `A ++ B`, an element of `A` precedes every occurrence of an event that is
not in `A`. -/
theorem mem_pre_of_split {A B pre post : List Event} {c x : Event} (hc : c ∉ A)
    (hx : x ∈ A) (h : A ++ B = pre ++ c :: post) : x ∈ pre := by
  rcases List.append_eq_append_iff.mp h with ⟨a', hpre, -⟩ | ⟨c', hA, hc'⟩
  · rw [hpre]; exact List.mem_append_left _ hx
  · cases c' with
    | nil => simpa [hA] using hx
    | cons d c'' =>
      rw [List.cons_append, List.cons.injEq] at hc'
      exact absurd (by rw [hA, hc'.1]; simp) hc

/-- Claim C7, as the code has it.  The value printed as `max_error` is the
`fMaxError` of the loaded model `net2` over the 32 sample points; for every
prediction function, also one that returns infinities or NaNs, it is not NaN and
not negative, no error `|predict(x) - sin(x)|` of the sweep other than a NaN
exceeds it, and it is `0` or one of these errors; it is finite exactly when no
error of the sweep is `+inf`.  Every `od4.isRunning()` check comes after the
line `max_error`. -/
theorem maxError_reported (w : World) :
    (∀ v, Event.coutMaxError v ∈ (main w).trace →
      ∃ net2 : Model,
        modelFile w (decide (w.stoi (arg w "traincnn") = some 1)) = some net2
        ∧ v = maxError net2 w.sinf
        ∧ v.nonneg = true
        ∧ (∀ x ∈ sweepPoints, errorAt net2 w.sinf x ≠ F32.nan →
            F32.lt v (errorAt net2 w.sinf x) = false)
        ∧ (v = F32.zero ∨ ∃ x ∈ sweepPoints, v = errorAt net2 w.sinf x)
        ∧ (v.isFinite = true ↔ ∀ x ∈ sweepPoints, errorAt net2 w.sinf x ≠ F32.inf false))
    ∧ (∀ pre a post, (main w).trace = pre ++ Event.isRunning a :: post →
        ∃ v, Event.coutMaxError v ∈ pre) := by
  rcases main_shape w with ⟨-, hm⟩ | ⟨-, hm⟩ | ⟨-, -, cid, hm⟩ | ⟨-, cid, tc, -, -, hm⟩
      | ⟨-, cid, ID, tc, net2, ht, hfile, hm, -⟩
  · rw [hm]
    refine ⟨fun v h => by simp [usage] at h, fun pre a post h => ?_⟩
    have : Event.isRunning a ∈ usage w.argv0 := by
      have h' : usage w.argv0 = pre ++ Event.isRunning a :: post := h
      rw [h']; simp
    simp [usage] at this
  · rw [hm]
    refine ⟨fun v h => by simp at h, fun pre a post h => ?_⟩
    have h' : ([] : List Event) = pre ++ Event.isRunning a :: post := h
    simp at h'
  · rw [hm]
    refine ⟨fun v h => by simp [failedLine] at h, fun pre a post h => ?_⟩
    have : Event.isRunning a ∈ [Event.od4Open cid, Event.shmNew (nameOf w) false, failedLine w] := by
      have h' : [Event.od4Open cid, Event.shmNew (nameOf w) false, failedLine w]
          = pre ++ Event.isRunning a :: post := h
      rw [h']; simp
    simp [failedLine] at this
  · rw [hm]
    refine ⟨fun v h => by simp [headEvents] at h, fun pre a post h => ?_⟩
    have : Event.isRunning a ∈ [Event.od4Open cid, Event.shmNew (nameOf w) true]
        ++ (headEvents w (nameOf w) ++ [Event.load "net" false]) := by
      have h' : [Event.od4Open cid, Event.shmNew (nameOf w) true]
          ++ (headEvents w (nameOf w) ++ [Event.load "net" false])
          = pre ++ Event.isRunning a :: post := h
      rw [h']; simp
    simp [headEvents] at this
  · have hfile' : modelFile w (decide (w.stoi (arg w "traincnn") = some 1)) = some net2 := by
      rw [ht]
      simpa using hfile
    rw [hm]
    constructor
    · intro v h
      simp only [List.mem_append, List.mem_cons, List.mem_singleton, List.not_mem_nil,
        or_false] at h
      have hv : v = maxError net2 w.sinf := by
        rcases h with (h | h) | (h | h) | h
        · simp at h
        · simp at h
        · exact coutMaxError_mem_preLoop _ _ _ _ _ h
        · have := frameLoop_kinds _ _ _ _ _ _ _ h
          simp [Event.kind, loopKinds] at this
        · have := closing_kinds _ _ _ h
          simp [Event.kind] at this
      obtain ⟨h1, h2, h3, h4⟩ := maxError_spec net2 w.sinf
      rw [hv]
      exact ⟨net2, hfile', rfl, h1, h2, h3, h4⟩
    · intro pre a post h
      refine ⟨maxError net2 w.sinf, ?_⟩
      have hsplit : ([Event.od4Open cid, Event.shmNew (nameOf w) true]
            ++ preLoop w (decide (tc = 1)) (nameOf w) net2)
          ++ ((frameLoop w (verboseFlag w) ID w.running 0 0).trace
            ++ (closing 0 (frameLoop w (verboseFlag w) ID w.running 0 0).exit).1)
          = pre ++ Event.isRunning a :: post := by
        rw [← h]; simp
      refine mem_pre_of_split ?_ ?_ hsplit
      · intro hc
        simp only [List.mem_append, List.mem_cons, List.mem_singleton, List.not_mem_nil,
          or_false] at hc
        rcases hc with (hc | hc) | hc
        · simp at hc
        · simp at hc
        · have := preLoop_kinds _ _ _ _ _ hc
          simp [Event.kind, preLoopKinds] at this
      · simp [preLoop]

set_option maxRecDepth 1000000 in
/-- Claim C7 as stated fails: when the stored network answers `+inf`, the value
printed as `max_error` is `+inf`, which is not finite. -/
theorem maxError_infinite :
    Event.coutMaxError (F32.inf false) ∈ (main wInf).trace
    ∧ F32.isFinite (F32.inf false) = false := by
  decide

/-! ## The shared-memory lock -/

theorem heldAfter_append (held : Bool) (a b : List Event) :
    heldAfter held (a ++ b) = heldAfter (heldAfter held a) b := by
  simp [heldAfter, List.foldl_append]

theorem lockDiscipline_append (held : Bool) (a b : List Event) :
    lockDiscipline held (a ++ b)
      = (lockDiscipline held a && lockDiscipline (heldAfter held a) b) := by
  induction a generalizing held with
  | nil => simp [lockDiscipline, heldAfter]
  | cons e a ih =>
    show ((inLockedSection e == held) && lockDiscipline (lockStep held e) (a ++ b)) = _
    rw [ih]
    simp [lockDiscipline, heldAfter, Bool.and_assoc]

/-- Under the lock discipline an event belongs to a locked section exactly when
the lock is held before it. -/
theorem lockDiscipline_split {held : Bool} {tr pre post : List Event} {e : Event}
    (h : lockDiscipline held tr = true) (hsplit : tr = pre ++ e :: post) :
    inLockedSection e = heldAfter held pre := by
  rw [hsplit, lockDiscipline_append] at h
  simp only [lockDiscipline, Bool.and_eq_true, beq_iff_eq] at h
  exact h.2.1

/-- A trace without lock events keeps the discipline and the lock state. -/
theorem lock_free (tr : List Event) (h : ∀ e ∈ tr, e.kind ∉ lockKinds) :
    lockDiscipline false tr = true ∧ heldAfter false tr = false := by
  induction tr with
  | nil => simp [lockDiscipline, heldAfter]
  | cons e tr ih =>
    have he : e.kind ∉ lockKinds := h e (List.mem_cons_self _ _)
    have hstep : lockStep false e = false ∧ inLockedSection e = false := by
      revert he
      cases e <;> simp [Event.kind, lockKinds, lockStep, inLockedSection]
    obtain ⟨h1, h2⟩ := ih (fun e' he' => h e' (List.mem_cons_of_mem _ he'))
    simp only [lockDiscipline, heldAfter, List.foldl_cons, hstep.1, hstep.2]
    exact ⟨by simpa using h1, h2⟩

theorem body_lock (w : World) (V : Bool) (ID k : Nat) (i : Int) :
    lockDiscipline false (Event.isRunning true :: iterationBody w V ID k i) = true
    ∧ heldAfter false (Event.isRunning true :: iterationBody w V ID k i) = false := by
  cases V <;> exact ⟨rfl, rfl⟩

/-- The frame loop keeps the lock discipline, and leaves the lock held exactly
when `cv::cvarrToMat` or `cv::resize` threw. -/
theorem frameLoop_lock (w : World) (V : Bool) (ID : Nat) (script : List Bool) (k : Nat)
    (i : Int) :
    lockDiscipline false (frameLoop w V ID script k i).trace = true
    ∧ (heldAfter false (frameLoop w V ID script k i).trace = true
        ↔ (frameLoop w V ID script k i).exit = LoopExit.threw Exn.cvError) := by
  induction script generalizing k i with
  | nil => simp [frameLoop_nil, lockDiscipline, heldAfter]
  | cons a rest ih =>
    cases a with
    | false =>
      rw [frameLoop_false]
      exact ⟨rfl, by simp [heldAfter, lockStep]⟩
    | true =>
      cases hf : w.cvFault k with
      | cvarrToMat =>
        rw [frameLoop_cvarrToMat _ _ _ _ _ _ hf]
        exact ⟨rfl, by simp [heldAfter, lockStep]⟩
      | resize =>
        rw [frameLoop_resize _ _ _ _ _ _ hf]
        exact ⟨rfl, by simp [heldAfter, lockStep]⟩
      | none =>
        rw [frameLoop_ok _ _ _ _ _ _ hf]
        simp only []
        rw [← List.cons_append, lockDiscipline_append, heldAfter_append,
          (body_lock w V ID k i).1, (body_lock w V ID k i).2]
        exact ⟨by simpa using (ih _ _).1, (ih _ _).2⟩

theorem preLoop_lock (w : World) (T : Bool) (NAME : String) (net2 : Model) :
    lockDiscipline false (preLoop w T NAME net2) = true
    ∧ heldAfter false (preLoop w T NAME net2) = false := by
  have hrest : ∀ e ∈ (if T then trainingEvents w else []) ++ [Event.load "net" true]
      ++ sweepPoints.map (fun x => Event.coutSample x (w.sinf x) (net2 x))
      ++ [Event.cout "", Event.coutMaxError (maxError net2 w.sinf)], e.kind ∉ lockKinds := by
    intro e he
    simp only [List.mem_append, List.mem_cons, List.mem_singleton, List.mem_map,
      List.not_mem_nil, or_false] at he
    rcases he with ((he | he) | he) | he
    · cases T
      · simp at he
      · simp only [if_true, trainingEvents, List.mem_append, List.mem_cons,
          List.mem_singleton, List.not_mem_nil, or_false] at he
        rcases he with (he | he) | he
        · rcases he with rfl | rfl <;> simp [Event.kind, lockKinds]
        · rw [epochCallbacks_kinds _ _ _ _ e he]; simp [lockKinds]
        · rcases he with rfl | rfl | rfl <;> simp [Event.kind, lockKinds]
    · subst he; simp [Event.kind, lockKinds]
    · obtain ⟨x, -, rfl⟩ := he; simp [Event.kind, lockKinds]
    · rcases he with rfl | rfl <;> simp [Event.kind, lockKinds]
  have hhead : lockDiscipline false (headEvents w NAME) = true
      ∧ heldAfter false (headEvents w NAME) = false := ⟨rfl, rfl⟩
  obtain ⟨h1, h2⟩ := lock_free _ hrest
  unfold preLoop
  simp only [List.append_assoc] at h1 h2 ⊢
  rw [lockDiscipline_append, heldAfter_append, hhead.1, hhead.2, h1, h2]
  exact ⟨rfl, rfl⟩

theorem closing_lock (retCode : Int) (x : LoopExit) (held : Bool) :
    lockDiscipline false (closing retCode x).1 = true
    ∧ heldAfter held (closing retCode x).1 = held := by
  cases x <;> exact ⟨rfl, rfl⟩

/-- Every run of `main` keeps the lock discipline, and ends with the lock held
exactly when it ended by an exception of `cv::cvarrToMat` or `cv::resize`. -/
theorem main_lock (w : World) :
    lockDiscipline false (main w).trace = true
    ∧ (heldAfter false (main w).trace = true
        ↔ (main w).outcome = Outcome.uncaught Exn.cvError) := by
  rcases main_shape w with ⟨-, hm⟩ | ⟨-, hm⟩ | ⟨-, -, cid, hm⟩ | ⟨-, cid, tc, -, -, hm⟩
      | ⟨-, cid, ID, tc, net2, -, -, hm, ho⟩
  · rw [hm]; exact ⟨rfl, by simp [usage, heldAfter, lockStep]⟩
  · rw [hm]; exact ⟨rfl, by simp [heldAfter]⟩
  · rw [hm]; exact ⟨rfl, by simp [failedLine, heldAfter, lockStep]⟩
  · rw [hm]; exact ⟨rfl, by simp [headEvents, heldAfter, lockStep]⟩
  · rw [hm, ho]
    have hopen : lockDiscipline false [Event.od4Open cid, Event.shmNew (nameOf w) true] = true
        ∧ heldAfter false [Event.od4Open cid, Event.shmNew (nameOf w) true] = false :=
      ⟨rfl, rfl⟩
    obtain ⟨hp1, hp2⟩ := preLoop_lock w (decide (tc = 1)) (nameOf w) net2
    obtain ⟨hl1, hl2⟩ := frameLoop_lock w (verboseFlag w) ID w.running 0 0
    have hheld : heldAfter false ([Event.od4Open cid, Event.shmNew (nameOf w) true]
          ++ (preLoop w (decide (tc = 1)) (nameOf w) net2
          ++ (frameLoop w (verboseFlag w) ID w.running 0 0).trace
          ++ (closing 0 (frameLoop w (verboseFlag w) ID w.running 0 0).exit).1))
        = heldAfter false (frameLoop w (verboseFlag w) ID w.running 0 0).trace := by
      rw [heldAfter_append, hopen.2, heldAfter_append, (closing_lock _ _ _).2, heldAfter_append,
        hp2]
    have hdisc : lockDiscipline false ([Event.od4Open cid, Event.shmNew (nameOf w) true]
          ++ (preLoop w (decide (tc = 1)) (nameOf w) net2
          ++ (frameLoop w (verboseFlag w) ID w.running 0 0).trace
          ++ (closing 0 (frameLoop w (verboseFlag w) ID w.running 0 0).exit).1))
        = lockDiscipline (heldAfter false (frameLoop w (verboseFlag w) ID w.running 0 0).trace)
            (closing 0 (frameLoop w (verboseFlag w) ID w.running 0 0).exit).1 := by
      rw [lockDiscipline_append, hopen.1, hopen.2, lockDiscipline_append,
        lockDiscipline_append, hp1, hp2, hl1, heldAfter_append, hp2]
      rfl
    rw [hheld, hdisc]
    cases hx : (frameLoop w (verboseFlag w) ID w.running 0 0).exit with
    | stopped =>
      have hnot : heldAfter false (frameLoop w (verboseFlag w) ID w.running 0 0).trace
          = false := by
        cases hh : heldAfter false (frameLoop w (verboseFlag w) ID w.running 0 0).trace
        · rfl
        · have := hl2.mp hh
          rw [hx] at this
          cases this
      rw [hnot]
      exact ⟨rfl, by simp [closing]⟩
    | awaiting =>
      have hnot : heldAfter false (frameLoop w (verboseFlag w) ID w.running 0 0).trace
          = false := by
        cases hh : heldAfter false (frameLoop w (verboseFlag w) ID w.running 0 0).trace
        · rfl
        · have := hl2.mp hh
          rw [hx] at this
          cases this
      rw [hnot]
      exact ⟨rfl, by simp [closing]⟩
    | threw e =>
      refine ⟨rfl, ?_⟩
      rw [hl2, hx]
      cases e <;> simp [closing]

/-- Claim C8, as the code has it.  The lock is released on the normal exit path
of every locked section and on no other: while the lock is held, the program
performs only the calls of the section (`data()`, `cv::cvarrToMat`, `cv::resize`,
`unlock()`), and a run ends with the lock held exactly when `cv::cvarrToMat` or
`cv::resize` threw inside the section, where `unlock()` is not called. -/
theorem lock_release (w : World) :
    (∀ pre e post, (main w).trace = pre ++ e :: post → heldAfter false pre = true →
      e.kind ∈ [Kind.shmData, Kind.cvarrToMat, Kind.resize, Kind.shmUnlock])
    ∧ (heldAfter false (main w).trace = true
        ↔ (main w).outcome = Outcome.uncaught Exn.cvError) := by
  refine ⟨?_, (main_lock w).2⟩
  intro pre e post hsplit hheld
  have := lockDiscipline_split (main_lock w).1 hsplit
  rw [hheld] at this
  simpa [inLockedSection] using this

set_option maxRecDepth 1000000 in
/-- Claim C8 as stated fails: when `cv::resize` throws in the second iteration,
the run ends by that exception right after `lock()`, `cvarrToMat`, `resize`,
with the lock held. -/
theorem lock_leak :
    (main wFault).outcome = Outcome.uncaught Exn.cvError
    ∧ (main wFault).trace.reverse.take 3
        = [Event.resize 256 196, Event.cvarrToMat, Event.shmLock]
    ∧ heldAfter false (main wFault).trace = true := by
  decide

/-- Claim C9, as the code has it.  Wherever an event occurs in a run of `main`:
a call of `od4.send` occurs with the lock released, and a call of `cv::resize`
occurs with the lock held, between `lock()` and `unlock()`. -/
theorem lock_scope (w : World) (pre post : List Event) (e : Event)
    (h : (main w).trace = pre ++ e :: post) :
    (e.kind = Kind.send → heldAfter false pre = false)
    ∧ (e.kind = Kind.resize → heldAfter false pre = true) := by
  have := lockDiscipline_split (main_lock w).1 h
  constructor
  · intro hk
    rw [← this]
    simp [inLockedSection, hk]
  · intro hk
    rw [← this]
    simp [inLockedSection, hk]

set_option maxRecDepth 1000000 in
/-- Claim C9 as stated fails: in a run with one frame, `cv::resize` is event
number 46, and the lock, taken at event 44, is held when it runs. -/
theorem resize_under_lock :
    (main wOnce).trace
      = (main wOnce).trace.take 46 ++ Event.resize 256 196 :: (main wOnce).trace.drop 47
    ∧ ((main wOnce).trace.take 46).getLast? = some Event.cvarrToMat
    ∧ ((main wOnce).trace.take 45).getLast? = some Event.shmLock
    ∧ heldAfter false ((main wOnce).trace.take 46) = true := by
  decide

/-! ## The claims at concrete inputs -/

set_option maxRecDepth 1000000 in
/-- Claim C1 at three frames in verbose mode. -/
theorem frameLoop_iterations_witness :
    answersOf (frameLoop wVerbose true 7 [true, true, true, false] 0 0).trace
        = List.replicate 3 true ++ [false]
    ∧ (iterations (frameLoop wVerbose true 7 [true, true, true, false] 0 0).trace).map sendCount
        = List.replicate 3 1
    ∧ sendCount (frameLoop wVerbose true 7 [true, true, true, false] 0 0).trace = 3 :=
  ⟨by decide,
   (frameLoop_iterations wVerbose true 7 [true, true, true, false] 0 0 3 (by decide)).2.2.2.1,
   (frameLoop_iterations wVerbose true 7 [true, true, true, false] 0 0 3 (by decide)).2.2.2.2.1⟩

set_option maxRecDepth 1000000 in
/-- Claim C2 at the first event sent by the verbose run. -/
theorem send_placeholder_witness :
    Event.send (F32.fin 0) (F32.fin 0) 0 7 ∈ (main wVerbose).trace
    ∧ (F32.fin 0 = F32.zero ∧ F32.fin 0 = F32.zero) :=
  ⟨by decide, send_placeholder wVerbose (F32.fin 0) (F32.fin 0) 0 7 (by decide)⟩

set_option maxRecDepth 1000000 in
/-- Claim C3 at `--cid=111 --name=cam0` with `argv[0] = "example"`: the six
lines written to `std::cerr`, and exit status `1`. -/
theorem usage_exit_witness :
    (wUsage.args "name" = none ∨ wUsage.args "cid" = none ∨ wUsage.args "traincnn" = none)
    ∧ (main wUsage).trace
        = [ Event.cerr "example accesses video data using shared memory provided using the command line parameter --name=.",
            Event.cerr "Usage:   example --cid=<OpenDaVINCI session> --name=<name for the associated shared memory> [--id=<sender stamp>] [--verbose]",
            Event.cerr "         --name:    name of the shared memory to use",
            Event.cerr "         --traincnn: set 1 or 0 for training the tiny dnn example and saving a net binary",
            Event.cerr "         --verbose: when set, a thumbnail of the image contained in the shared memory is sent",
            Event.cerr "Example: example --cid=111 --name=cam0 --traincnn=1" ]
    ∧ (main wUsage).outcome = Outcome.exit 1 :=
  ⟨by decide,
   (usage_exit wUsage (by decide)).1.trans (by decide),
   (usage_exit wUsage (by decide)).2.1⟩

set_option maxRecDepth 1000000 in
/-- Claim C4 at `--cid=111 --name=cam0 --traincnn=0` without a shared memory `cam0`. -/
theorem invalid_no_processing_witness :
    Event.shmNew (nameOf wNoShm) false ∈ (main wNoShm).trace
    ∧ failedLine wNoShm ∈ (main wNoShm).trace
    ∧ ∀ e ∈ (main wNoShm).trace, e.kind ∉ processingKinds :=
  ⟨by decide, invalid_no_processing wNoShm (by decide) (by decide)⟩

set_option maxRecDepth 1000000 in
/-- Claim C6 at `--cid=111 --name=cam0 --traincnn=0` with a stored network. -/
theorem model_acquisition_witness :
    Event.shmNew (nameOf wOnce) true ∈ (main wOnce).trace
    ∧ modelOps (main wOnce).trace = [Event.load "net" true] :=
  ⟨by decide, (model_acquisition wOnce (by decide)).2 (by decide)⟩

set_option maxRecDepth 1000000 in
/-- Claim C7 at the stored network that answers `+inf`: the printed value is
not negative, and it precedes the first check. -/
theorem maxError_reported_witness :
    Event.coutMaxError (F32.inf false) ∈ (main wInf).trace
    ∧ (F32.inf false).nonneg = true
    ∧ ∃ v, Event.coutMaxError v ∈ (main wInf).trace.take 42 :=
  ⟨by decide, by decide,
   (maxError_reported wInf).2 ((main wInf).trace.take 42) false ((main wInf).trace.drop 43)
     (by decide)⟩

set_option maxRecDepth 1000000 in
/-- Claim C8 at the run whose second iteration throws: the lock is held at the end. -/
theorem lock_release_witness :
    (main wFault).outcome = Outcome.uncaught Exn.cvError
    ∧ heldAfter false (main wFault).trace = true :=
  ⟨by decide, (lock_release wFault).2.mpr (by decide)⟩

set_option maxRecDepth 1000000 in
/-- Claim C9 at the `od4.send` of a run with one frame: event number 48, with
the lock released. -/
theorem lock_scope_witness :
    (main wOnce).trace
      = (main wOnce).trace.take 48 ++ Event.send F32.zero F32.zero 0 0
          :: (main wOnce).trace.drop 49
    ∧ heldAfter false ((main wOnce).trace.take 48) = false :=
  ⟨by decide,
   (lock_scope wOnce ((main wOnce).trace.take 48) ((main wOnce).trace.drop 49)
     (Event.send F32.zero F32.zero 0 0) (by decide)).1 rfl⟩

end Example
